import Mathlib

/-!
Verification of the credential lifecycle and scope-gating core of the
bbkt repository (Go). The Go functions are shallowly embedded as Lean
functions:

* `hasRequiredScope`, `getToolRequiredScope`, `addTool` from
  `internal/mcp` (the ScopeMatcher / CapabilityGate).
* `Credentials`, `ProfileStore`, `IsExpired`, `SaveProfileStore`,
  `SaveProfile`, `LoadProfileStore`, `LoadCredentials` from
  `internal/bitbucket` (credential store and profile resolution).

Go maps are modelled as association lists (Go map iteration order is
unspecified; the list order stands in for one iteration order), file
contents as an inductive shape type, `time.Time` instants as integer
nanosecond counts, and environment/git context as explicit parameters.
-/

/-- One stored credential profile (Go struct `Credentials`).
`createdAt` is an instant in nanoseconds; `authType` is Go's string-typed
`AuthType`; `profileName` carries `json:"-"` in Go, i.e. it is never
serialized. -/
structure Credentials where
  profileName : String
  authType : String
  createdAt : Int
  email : String
  apiToken : String
  accessToken : String
  refreshToken : String
  tokenType : String
  expiresIn : Int
  scopes : String
  clientID : String
  clientSecret : String
  accessibleWorkspaces : List String
deriving Repr, DecidableEq

/-- Go constant `AuthTypeOAuth = "oauth"`. -/
def authTypeOAuth : String := "oauth"

/-- Go constant `AuthTypeAPIToken = "api_token"`. -/
def authTypeAPIToken : String := "api_token"

/-- Go method `Credentials.IsOAuth`. -/
def Credentials.isOAuth (c : Credentials) : Bool :=
  c.authType == authTypeOAuth

/-- Nanoseconds per second (`time.Second` as a `time.Duration` count). -/
def nsPerSecond : Int := 1000000000

/-- Nanoseconds in five minutes (`5 * time.Minute`). -/
def fiveMinutesNs : Int := 5 * 60 * nsPerSecond

/-- Go method `Credentials.IsExpired`, with the current instant made an
explicit parameter (Go reads `time.Now()`).  `time.Time.After` is a strict
comparison of instants. -/
def Credentials.isExpired (c : Credentials) (now : Int) : Bool :=
  if !c.isOAuth then
    false
  else
    let expiry := c.createdAt + c.expiresIn * nsPerSecond
    now > expiry - fiveMinutesNs

/-- The inner body of `hasRequiredScope`'s double loop: does granted raw
scope `ts` satisfy requirement `req`?  Mirrors the exact-match test plus
the `switch req` equivalence table in `internal/mcp`. -/
def scopeSatisfies (req ts : String) : Bool :=
  if ts == req then true
  else if req == "repository" then
    ts == "repository:write" || ts == "repository:admin" ||
    ts == "read:repository:bitbucket" || ts == "write:repository:bitbucket" ||
    ts == "admin:repository:bitbucket"
  else if req == "repository:write" then
    ts == "repository:admin" ||
    ts == "write:repository:bitbucket" || ts == "admin:repository:bitbucket"
  else if req == "repository:admin" then
    ts == "admin:repository:bitbucket"
  else if req == "pullrequest" then
    ts == "pullrequest:write" ||
    ts == "read:pullrequest:bitbucket" || ts == "write:pullrequest:bitbucket"
  else if req == "pullrequest:write" then
    ts == "write:pullrequest:bitbucket"
  else if req == "pipeline" then
    ts == "pipeline:write" ||
    ts == "read:pipeline:bitbucket" || ts == "write:pipeline:bitbucket"
  else if req == "pipeline:write" then
    ts == "write:pipeline:bitbucket"
  else if req == "issue" then
    ts == "issue:write" ||
    ts == "read:issue:bitbucket" || ts == "write:issue:bitbucket"
  else if req == "issue:write" then
    ts == "write:issue:bitbucket"
  else false

/-- Go function `hasRequiredScope(tokenScopes, required []string) bool`.
The nested loops returning `true` on first hit are `List.any`. -/
def hasRequiredScope (tokenScopes required : List String) : Bool :=
  if required.isEmpty then true
  else if tokenScopes.isEmpty then true
  else required.any fun req => tokenScopes.any fun ts => scopeSatisfies req ts

/-- Go function `getToolRequiredScope(toolName string) []string`. -/
def getToolRequiredScope (toolName : String) : List String :=
  if toolName == "manage_workspaces" then []
  else if toolName == "manage_repositories" || toolName == "manage_refs" ||
          toolName == "manage_commits" || toolName == "manage_source" then
    ["repository"]
  else if toolName == "manage_pull_requests" || toolName == "manage_pr_comments" then
    ["pullrequest"]
  else if toolName == "manage_pipelines" then
    ["pipeline"]
  else if toolName == "manage_issues" then
    ["issue"]
  else []

/-- The registration condition of Go's `addTool`: the tool is registered
iff it is not in the disabled set and the token scopes pass
`hasRequiredScope` for the tool's required scope. -/
def addToolRegisters (disabled : List String) (tokenScopes : List String)
    (toolName : String) : Bool :=
  if disabled.contains toolName then false
  else hasRequiredScope tokenScopes (getToolRequiredScope toolName)

/-- Claim C1: `hasRequiredScope` returns true whenever the required list is
empty, and returns true for every requirement (repository-admin included)
whenever the granted-scope set is empty (fail-open). -/
theorem hasRequiredScope_fail_open (tokenScopes required : List String) :
    (required = [] → hasRequiredScope tokenScopes required = true) ∧
    (tokenScopes = [] → hasRequiredScope tokenScopes required = true) ∧
    hasRequiredScope [] ["repository:admin"] = true := by
  refine ⟨fun h => ?_, fun h => ?_, by decide⟩
  · simp [hasRequiredScope, h]
  · subst h
    simp [hasRequiredScope]

/-- Witness for C1 at a concrete input. -/
theorem hasRequiredScope_fail_open_witness :
    hasRequiredScope ["read:issue:bitbucket"] [] = true ∧
    hasRequiredScope [] ["repository:admin"] = true :=
  ⟨(hasRequiredScope_fail_open ["read:issue:bitbucket"] []).1 rfl,
   (hasRequiredScope_fail_open [] ["repository:admin"]).2.1 rfl⟩

/-- Claim C5: a granted-scope set containing `write:repository:bitbucket`
satisfies the repository read requirement and the repository write
requirement, but not the repository admin requirement unless the set also
holds one of admin's satisfying scopes. -/
theorem write_repo_token_scope_grants
    (tokenScopes : List String)
    (hmem : "write:repository:bitbucket" ∈ tokenScopes) :
    hasRequiredScope tokenScopes ["repository"] = true ∧
    hasRequiredScope tokenScopes ["repository:write"] = true ∧
    ("repository:admin" ∉ tokenScopes → "admin:repository:bitbucket" ∉ tokenScopes →
      hasRequiredScope tokenScopes ["repository:admin"] = false) := by
  have hne : tokenScopes ≠ [] := by
    intro h; subst h; simp at hmem
  refine ⟨?_, ?_, ?_⟩
  · simp [hasRequiredScope, List.isEmpty_eq_true, hne, List.any_eq_true]
    exact ⟨"write:repository:bitbucket", hmem, by decide⟩
  · simp [hasRequiredScope, List.isEmpty_eq_true, hne, List.any_eq_true]
    exact ⟨"write:repository:bitbucket", hmem, by decide⟩
  · intro h1 h2
    simp [hasRequiredScope, List.isEmpty_eq_true, hne, List.any_eq_true]
    intro ts hts
    simp [scopeSatisfies]
    constructor
    · intro h; subst h; exact h1 hts
    · intro h; subst h; exact h2 hts

/-- Witness for C5 at the singleton scope set. -/
theorem write_repo_token_scope_grants_witness :
    hasRequiredScope ["write:repository:bitbucket"] ["repository"] = true ∧
    hasRequiredScope ["write:repository:bitbucket"] ["repository:write"] = true ∧
    hasRequiredScope ["write:repository:bitbucket"] ["repository:admin"] = false := by
  have h := write_repo_token_scope_grants ["write:repository:bitbucket"] (by decide)
  exact ⟨h.1, h.2.1, h.2.2 (by decide) (by decide)⟩

/-- Singleton-requirement unfolding of `hasRequiredScope`. -/
theorem hasRequiredScope_singleton (scopes : List String) (req : String)
    (h : scopes ≠ []) :
    hasRequiredScope scopes [req] = true ↔
      ∃ ts ∈ scopes, scopeSatisfies req ts = true := by
  simp [hasRequiredScope, List.isEmpty_eq_true, h, List.any_eq_true]

theorem scopeSatisfies_repo_write_read (ts : String)
    (h : scopeSatisfies "repository:write" ts = true) :
    scopeSatisfies "repository" ts = true := by
  simp [scopeSatisfies] at h ⊢
  tauto

theorem scopeSatisfies_repo_admin_write (ts : String)
    (h : scopeSatisfies "repository:admin" ts = true) :
    scopeSatisfies "repository:write" ts = true := by
  simp [scopeSatisfies] at h ⊢
  tauto

theorem scopeSatisfies_pr_write_read (ts : String)
    (h : scopeSatisfies "pullrequest:write" ts = true) :
    scopeSatisfies "pullrequest" ts = true := by
  simp [scopeSatisfies] at h ⊢
  tauto

theorem scopeSatisfies_pipeline_write_read (ts : String)
    (h : scopeSatisfies "pipeline:write" ts = true) :
    scopeSatisfies "pipeline" ts = true := by
  simp [scopeSatisfies] at h ⊢
  tauto

theorem scopeSatisfies_issue_write_read (ts : String)
    (h : scopeSatisfies "issue:write" ts = true) :
    scopeSatisfies "issue" ts = true := by
  simp [scopeSatisfies] at h ⊢
  tauto

/-- Claim C6: on any non-empty granted-scope set the equivalence mapping is
monotone within each resource family: write granted implies read granted
for repository, pullrequest, pipeline and issue, and for the repository
family admin granted implies write granted. -/
theorem hasRequiredScope_monotone (scopes : List String) (hne : scopes ≠ []) :
    (hasRequiredScope scopes ["repository:write"] = true →
      hasRequiredScope scopes ["repository"] = true) ∧
    (hasRequiredScope scopes ["repository:admin"] = true →
      hasRequiredScope scopes ["repository:write"] = true) ∧
    (hasRequiredScope scopes ["pullrequest:write"] = true →
      hasRequiredScope scopes ["pullrequest"] = true) ∧
    (hasRequiredScope scopes ["pipeline:write"] = true →
      hasRequiredScope scopes ["pipeline"] = true) ∧
    (hasRequiredScope scopes ["issue:write"] = true →
      hasRequiredScope scopes ["issue"] = true) := by
  refine ⟨fun h => ?_, fun h => ?_, fun h => ?_, fun h => ?_, fun h => ?_⟩ <;>
    rw [hasRequiredScope_singleton scopes _ hne] at h ⊢ <;>
    obtain ⟨ts, hts, hsat⟩ := h
  · exact ⟨ts, hts, scopeSatisfies_repo_write_read ts hsat⟩
  · exact ⟨ts, hts, scopeSatisfies_repo_admin_write ts hsat⟩
  · exact ⟨ts, hts, scopeSatisfies_pr_write_read ts hsat⟩
  · exact ⟨ts, hts, scopeSatisfies_pipeline_write_read ts hsat⟩
  · exact ⟨ts, hts, scopeSatisfies_issue_write_read ts hsat⟩

/-- Witness for C6 at a concrete non-empty scope set. -/
theorem hasRequiredScope_monotone_witness :
    hasRequiredScope ["repository:admin"] ["repository:write"] = true := by
  exact (hasRequiredScope_monotone ["repository:admin"] (by decide)).2.1 (by decide)

/-- A concrete OAuth record: created at instant 0, expires in 3600 s. -/
def oauthSample : Credentials :=
  { profileName := "default"
    authType := "oauth"
    createdAt := 0
    email := ""
    apiToken := ""
    accessToken := "tok"
    refreshToken := "ref"
    tokenType := "bearer"
    expiresIn := 3600
    scopes := "repository"
    clientID := "id"
    clientSecret := "sec"
    accessibleWorkspaces := [] }

/-- Counterexample to claim C2 as stated: at the instant exactly 5 minutes
before nominal expiry (now = createdAt + expiresIn − 5 min, here 3300 s),
the claim says the record already counts as expired (now ≥ threshold), but
`IsExpired` uses Go's strict `time.Time.After` and returns false. -/
theorem isExpired_boundary_counterexample :
    3300 * nsPerSecond ≥
      oauthSample.createdAt + oauthSample.expiresIn * nsPerSecond - fiveMinutesNs ∧
    oauthSample.isExpired (3300 * nsPerSecond) = false := by
  constructor
  · decide
  · decide

/-- Claim C2 (amended): `IsExpired` is false for any non-OAuth record, and
for an OAuth record it is true exactly when now is strictly after
createdAt + expiresIn − 5 minutes; the instant exactly 5 minutes before
nominal expiry does not yet count as expired. -/
theorem isExpired_characterization (c : Credentials) (now : Int) :
    (c.isOAuth = false → c.isExpired now = false) ∧
    (c.isOAuth = true →
      (c.isExpired now = true ↔
        now > c.createdAt + c.expiresIn * nsPerSecond - fiveMinutesNs)) := by
  constructor
  · intro h
    simp [Credentials.isExpired, h]
  · intro h
    simp [Credentials.isExpired, h]

/-- Witness for C2 (amended): one nanosecond past the buffer threshold the
sample OAuth record is expired, and a static-kind record never is. -/
theorem isExpired_characterization_witness :
    oauthSample.isExpired (3300 * nsPerSecond + 1) = true ∧
    ({ oauthSample with authType := "api_token" } : Credentials).isExpired
      (3300 * nsPerSecond + 1) = false := by
  constructor
  · exact ((isExpired_characterization oauthSample (3300 * nsPerSecond + 1)).2
      (by decide)).mpr (by decide)
  · exact (isExpired_characterization { oauthSample with authType := "api_token" }
      (3300 * nsPerSecond + 1)).1 (by decide)

/-- Claim C10: the static required-scope table maps every tool name to
either no requirement or the single read-level scope of its resource
family — never a write- or admin-level one — so with a purely read-level
token (scope `read:repository:bitbucket`) the mutating tools
`manage_source` and `manage_repositories` still pass the registration
gate of `addTool`. -/
theorem getToolRequiredScope_read_level :
    (∀ toolName, getToolRequiredScope toolName = [] ∨
      getToolRequiredScope toolName = ["repository"] ∨
      getToolRequiredScope toolName = ["pullrequest"] ∨
      getToolRequiredScope toolName = ["pipeline"] ∨
      getToolRequiredScope toolName = ["issue"]) ∧
    addToolRegisters [] ["read:repository:bitbucket"] "manage_source" = true ∧
    addToolRegisters [] ["read:repository:bitbucket"] "manage_repositories" = true := by
  refine ⟨fun toolName => ?_, by decide, by decide⟩
  unfold getToolRequiredScope
  split_ifs <;> simp

/-- Go struct `ProfileStore`; the Go map `Profiles` is modelled as an
association list (one fixed iteration order of the unordered map). -/
structure ProfileStore where
  activeProfile : String
  profiles : List (String × Credentials)
deriving Repr, DecidableEq

/-- Go `strings.EqualFold`, restricted to ASCII simple case folding
(`Char.toLower` lowers exactly the ASCII letters), stated over the
character lists of the two strings. -/
def equalFold (s t : String) : Bool :=
  s.data.map Char.toLower == t.data.map Char.toLower

/-- Does a record's `AccessibleWorkspaces` cache contain workspace `ws`
under case folding (the inner loop of `LoadCredentials` tier 2)? -/
def wsMatch (creds : Credentials) (ws : String) : Bool :=
  creds.accessibleWorkspaces.any fun accessible => equalFold accessible ws

/-- The context-inference scan of `LoadCredentials` (tier 2): first
profile in iteration order whose workspace cache matches `ws`. -/
def contextMatch (profiles : List (String × Credentials)) (ws : String) :
    Option Credentials :=
  (profiles.find? fun p => wsMatch p.2 ws).map fun p => p.2

/-- Tiers 3–5 of `LoadCredentials`: the `ActiveProfile` lookup, the
any-profile recovery when it is absent, and the not-authenticated error. -/
def activeFallback (store : ProfileStore) : Except String Credentials :=
  match store.profiles.lookup store.activeProfile with
  | some creds => .ok creds
  | none =>
    match store.profiles with
    | p :: _ => .ok p.2
    | [] => .error ("active profile '" ++ store.activeProfile ++
        "' not found in store, and no other profiles found")

/-- Go function `LoadCredentials` on an already-loaded store, with the
process context made explicit: `override` is the `BBKT_PROFILE`
environment value (`""` when unset, as `os.Getenv` reports) and
`localWs` the workspace from `GetLocalRepoInfo` (`none` when that call
errored). -/
def loadCredentials (store : ProfileStore) (override : String)
    (localWs : Option String) : Except String Credentials :=
  if override != "" then
    match store.profiles.lookup override with
    | some creds => .ok creds
    | none => .error ("override profile '" ++ override ++ "' not found in store")
  else
    match localWs with
    | some ws =>
      if ws != "" then
        match contextMatch store.profiles ws with
        | some creds => .ok creds
        | none => activeFallback store
      else activeFallback store
    | none => activeFallback store

/-- Claim C3: with a non-empty override, resolution returns the profile
stored under the override name when present — regardless of any
context-workspace match — and otherwise fails with the profile-not-found
error without falling through to the other tiers. -/
theorem loadCredentials_override (store : ProfileStore) (override : String)
    (localWs : Option String) (hov : override ≠ "") :
    (∀ creds, store.profiles.lookup override = some creds →
      loadCredentials store override localWs = .ok creds) ∧
    (store.profiles.lookup override = none →
      loadCredentials store override localWs =
        .error ("override profile '" ++ override ++ "' not found in store")) := by
  constructor
  · intro creds hcreds
    simp [loadCredentials, hov, hcreds]
  · intro hnone
    simp [loadCredentials, hov, hnone]

/-- A context match comes with the matching cache entry: if the tier-2
scan returns a record, that record's workspace cache matches `ws`. -/
theorem contextMatch_wsMatch (profiles : List (String × Credentials))
    (ws : String) (creds : Credentials)
    (h : contextMatch profiles ws = some creds) : wsMatch creds ws = true := by
  unfold contextMatch at h
  rw [Option.map_eq_some'] at h
  obtain ⟨p, hfind, hp⟩ := h
  have := List.find?_some hfind
  rw [← hp]
  exact this

/-- With no override, resolution reduces to the active-profile fallback
whenever tier 2 produces no match. -/
theorem loadCredentials_fallback (store : ProfileStore) (localWs : Option String)
    (hmiss : ∀ ws, localWs = some ws → ws ≠ "" →
      contextMatch store.profiles ws = none) :
    loadCredentials store "" localWs = activeFallback store := by
  cases localWs with
  | none => simp [loadCredentials]
  | some ws =>
    by_cases hws : ws = ""
    · subst hws; simp [loadCredentials]
    · simp [loadCredentials, hws, hmiss ws rfl hws]

/-- Claim C4: with no override, (i) a non-empty local-context workspace
matched by some profile's cache resolves to a matching profile; otherwise
(ii) an `activeProfile` present in the map resolves to that profile,
(iii) a non-empty map always resolves to some profile without error, and
(iv) resolution errors when the map is empty. -/
theorem loadCredentials_no_override (store : ProfileStore)
    (localWs : Option String) :
    (∀ ws creds, localWs = some ws → ws ≠ "" →
      contextMatch store.profiles ws = some creds →
      loadCredentials store "" localWs = .ok creds ∧ wsMatch creds ws = true) ∧
    ((∀ ws, localWs = some ws → ws ≠ "" → contextMatch store.profiles ws = none) →
      (∀ creds, store.profiles.lookup store.activeProfile = some creds →
        loadCredentials store "" localWs = .ok creds) ∧
      (store.profiles ≠ [] →
        ∃ creds, loadCredentials store "" localWs = .ok creds)) ∧
    (store.profiles = [] →
      ∃ e, loadCredentials store "" localWs = .error e) := by
  refine ⟨?_, ?_, ?_⟩
  · intro ws creds hws hne hctx
    subst hws
    refine ⟨?_, contextMatch_wsMatch store.profiles ws creds hctx⟩
    simp [loadCredentials, hne, hctx]
  · intro hmiss
    rw [loadCredentials_fallback store localWs hmiss]
    constructor
    · intro creds hcreds
      simp [activeFallback, hcreds]
    · intro hne
      unfold activeFallback
      cases hlook : store.profiles.lookup store.activeProfile with
      | some creds => exact ⟨creds, rfl⟩
      | none =>
        cases hp : store.profiles with
        | nil => exact absurd hp hne
        | cons p rest => exact ⟨p.2, by simp⟩
  · intro hempty
    have hmiss : ∀ ws, localWs = some ws → ws ≠ "" →
        contextMatch store.profiles ws = none := by
      intro ws _ _
      simp [contextMatch, hempty]
    rw [loadCredentials_fallback store localWs hmiss]
    unfold activeFallback
    rw [hempty]
    exact ⟨_, rfl⟩

/-- A concrete static-kind profile whose cache holds workspace `acme`. -/
def credAlpha : Credentials :=
  { profileName := "alpha"
    authType := "api_token"
    createdAt := 100
    email := "alpha@example.com"
    apiToken := "token-a"
    accessToken := ""
    refreshToken := ""
    tokenType := ""
    expiresIn := 0
    scopes := "repository"
    clientID := ""
    clientSecret := ""
    accessibleWorkspaces := ["acme"] }

/-- A concrete static-kind profile whose cache holds workspace `globex`. -/
def credBeta : Credentials :=
  { profileName := "beta"
    authType := "api_token"
    createdAt := 200
    email := "beta@example.com"
    apiToken := "token-b"
    accessToken := ""
    refreshToken := ""
    tokenType := ""
    expiresIn := 0
    scopes := "repository"
    clientID := ""
    clientSecret := ""
    accessibleWorkspaces := ["globex"] }

/-- A concrete two-profile store with `alpha` active. -/
def storeAB : ProfileStore :=
  { activeProfile := "alpha"
    profiles := [("alpha", credAlpha), ("beta", credBeta)] }

/-- Witness for C3: the override `beta` wins even though `alpha`'s cache
matches the local workspace `acme`, and an absent override name errors. -/
theorem loadCredentials_override_witness :
    loadCredentials storeAB "beta" (some "acme") = .ok credBeta ∧
    loadCredentials storeAB "gamma" (some "acme") =
      .error ("override profile '" ++ "gamma" ++ "' not found in store") := by
  constructor
  · exact (loadCredentials_override storeAB "beta" (some "acme") (by decide)).1
      credBeta (by decide)
  · exact (loadCredentials_override storeAB "gamma" (some "acme") (by decide)).2
      (by decide)

/-- Witness for C4: local workspace `GLOBEX` (case-folded) resolves to
`beta` although `alpha` is the active profile. -/
theorem loadCredentials_no_override_witness :
    loadCredentials storeAB "" (some "GLOBEX") = .ok credBeta ∧
    wsMatch credBeta "GLOBEX" = true := by
  exact (loadCredentials_no_override storeAB (some "GLOBEX")).1
    "GLOBEX" credBeta rfl (by decide) (by decide)

/-- The shape of the credentials file as `LoadProfileStore` probes it:
unparseable content, a legacy bare record (a JSON object without the
`profiles` key), or the new store format (object with the `profiles`
key). -/
inductive FileContent where
  | malformed
  | legacyCreds (c : Credentials)
  | storeFormat (activeProfile : String) (profiles : List (String × Credentials))
deriving Repr, DecidableEq

/-- JSON marshalling of one record: `ProfileName` carries `json:"-"` and
is dropped; every other field round-trips. -/
def serializeCreds (c : Credentials) : Credentials :=
  { c with profileName := "" }

/-- Go function `SaveProfileStore`: marshals the whole store in the new
format (the `profiles` key is always present). -/
def serializeStore (store : ProfileStore) : FileContent :=
  .storeFormat store.activeProfile
    (store.profiles.map fun p => (p.1, serializeCreds p.2))

/-- The one-entry store built by the legacy-migration branch of
`LoadProfileStore`. -/
def migratedStore (c : Credentials) : ProfileStore :=
  { activeProfile := "default"
    profiles := [("default", { c with profileName := "default" })] }

/-- Go function `LoadProfileStore` on file content.  The second component
of the result is the content silently rewritten to disk (the legacy
branch calls `SaveProfileStore`); `none` means no rewrite. -/
def loadProfileStore : FileContent → Except String (ProfileStore × Option FileContent)
  | .malformed => .error "parsing credentials file"
  | .legacyCreds c =>
    .ok (migratedStore c, some (serializeStore (migratedStore c)))
  | .storeFormat active profiles =>
    .ok ({ activeProfile := active,
           profiles := profiles.map fun p => (p.1, { p.2 with profileName := p.1 }) },
         none)

/-- `LoadProfileStore` including the `os.ReadFile` step: `none` models a
missing file. -/
def loadProfileStoreDisk :
    Option FileContent → Except String (ProfileStore × Option FileContent)
  | none => .error "reading credentials file"
  | some content => loadProfileStore content

/-- Go map assignment `store.Profiles[name] = creds` on the association
list: replace the binding if the key exists, else append. -/
def upsert (profiles : List (String × Credentials)) (name : String)
    (creds : Credentials) : List (String × Credentials) :=
  match profiles with
  | [] => [(name, creds)]
  | p :: rest =>
    if p.1 == name then (name, creds) :: rest else p :: upsert rest name creds

/-- Go function `SaveProfile`: defaults the profile name, loads the store
(falling back to a fresh empty store on ANY load error), upserts the
record, marks it active if no profile was active, and saves.  Returns the
resulting on-disk content. -/
def saveProfile (disk : Option FileContent) (creds : Credentials) : FileContent :=
  let creds :=
    if creds.profileName == "" then { creds with profileName := "default" } else creds
  let store :=
    match loadProfileStoreDisk disk with
    | .ok (s, _) => s
    | .error _ => { activeProfile := "", profiles := [] }
  let store := { store with profiles := upsert store.profiles creds.profileName creds }
  let store :=
    if store.activeProfile == "" then { store with activeProfile := creds.profileName }
    else store
  serializeStore store

/-- Claim C7: a legacy bare-record file loads as the one-profile store
under the key `default` with `default` active, is rewritten to disk in
the new format, and the migration is idempotent: loading the rewritten
content yields the very same store with no further rewrite. -/
theorem loadProfileStore_legacy_migration (c : Credentials) :
    loadProfileStore (.legacyCreds c) =
      .ok (migratedStore c, some (serializeStore (migratedStore c))) ∧
    loadProfileStore (serializeStore (migratedStore c)) = .ok (migratedStore c, none) ∧
    (migratedStore c).activeProfile = "default" ∧
    (migratedStore c).profiles = [("default", { c with profileName := "default" })] :=
  ⟨rfl, rfl, rfl, rfl⟩

/-- Claim C9: saving a store whose records carry their own map key as
profile name and loading the result is the identity (the load back-fills
each profile name from its key and every other field round-trips). -/
theorem saveProfileStore_load_roundtrip (store : ProfileStore)
    (h : ∀ p ∈ store.profiles, (p.2).profileName = p.1) :
    loadProfileStore (serializeStore store) = .ok (store, none) := by
  have hmap : ∀ l : List (String × Credentials), (∀ p ∈ l, (p.2).profileName = p.1) →
      (l.map fun p => (p.1, serializeCreds p.2)).map
        (fun p => (p.1, { p.2 with profileName := p.1 })) = l := by
    intro l hl
    induction l with
    | nil => rfl
    | cons p rest ih =>
      have hp : (p.2).profileName = p.1 := hl p (List.mem_cons_self p rest)
      have hrest := ih fun q hq => hl q (List.mem_cons_of_mem p hq)
      simp only [List.map_cons]
      rw [hrest]
      obtain ⟨k, c⟩ := p
      simp only at hp
      rw [← hp]
      rfl
  simp only [loadProfileStore, serializeStore, hmap store.profiles h]

/-- Witness for C9 on the concrete two-profile store. -/
theorem saveProfileStore_load_roundtrip_witness :
    loadProfileStore (serializeStore storeAB) = .ok (storeAB, none) :=
  saveProfileStore_load_roundtrip storeAB (by decide)

/-- Claim C8, failing part on the code: a malformed file makes
`LoadProfileStore` fail with the parse error (the claim's first half),
but `SaveProfile` swallows that error and succeeds, replacing the corrupt
file with a fresh one-profile store instead of surfacing the error. -/
theorem saveProfile_swallows_parse_error :
    loadProfileStore .malformed = .error "parsing credentials file" ∧
    loadProfileStoreDisk (some .malformed) = .error "parsing credentials file" ∧
    saveProfile (some .malformed) credAlpha =
      serializeStore { activeProfile := "alpha", profiles := [("alpha", credAlpha)] } :=
  ⟨rfl, rfl, by decide⟩
